import Mathlib

/-!
Verification of `chandra/model/hf.py`: batched vision-language inference glue.

The file embeds the data model (`BatchInputItem`, `Message`, `GenerationResult`),
the per-item preprocessing (`process_batch_element`), the batched generation
driver (`generate_hf`) and the loader's kwargs policy (`load_model`).  External
collaborators (chat templating, tokenisation, generation, decoding) are
abstracted as fields of a `ModelHandle`; their documented shape contracts
(one output per input) appear as hypotheses where a theorem needs them.
-/

set_option autoImplicit false

namespace Chandra

/-- A raster image, modelled by its pixel dimensions (the only attributes the
code under verification inspects). -/
structure Image where
  width : Nat
  height : Nat
deriving DecidableEq

/-- Modelled from the spec: `BatchInputItem` is declared in
`chandra/model/schema.py`, which is not under `src/`.  The spec describes it as
"image (raster image), prompt (optional literal text), prompt_type (key
selecting a default template when prompt absent)". -/
structure BatchInputItem where
  image : Image
  prompt : Option String
  prompt_type : String
deriving DecidableEq

/-- Modelled from the spec: `GenerationResult` is declared in
`chandra/model/schema.py`, which is not under `src/`.  The spec describes it as
"raw (decoded text), token_count (count of generated tokens excluding the
prompt), error (boolean flag)". -/
structure GenerationResult where
  raw : String
  token_count : Nat
  error : Bool
deriving DecidableEq

/-- One typed block of a chat message: `{"type": "image", ...}` or
`{"type": "text", ...}` in the Python source. -/
inductive ContentBlock where
  | image (img : Image)
  | text (t : String)
deriving DecidableEq

/-- A chat message `{"role": ..., "content": [...]}`. -/
structure Message where
  role : String
  content : List ContentBlock
deriving DecidableEq

/-- The global configuration object `chandra.settings.settings`, restricted to
the fields `hf.py` reads. -/
structure Settings where
  BBOX_SCALE : Int
  MAX_OUTPUT_TOKENS : Nat
  TORCH_DEVICE : Option String
  USE_8BIT_QUANTIZATION : Bool
  TORCH_ATTN : Option String
  MODEL_CHECKPOINT : String

/-- The prompt template registry `chandra.prompts.PROMPT_MAPPING`, an external
collaborator of `hf.py` (a dict from prompt-type keys to template strings),
modelled as a partial map. -/
def PromptMapping : Type := String → Option String

/-! ### Python `str.replace`

`process_batch_element` calls `template.replace("{bbox_scale}", str(bbox_scale))`.
Python's `str.replace` substitutes every occurrence of the pattern,
left to right, without overlap.  `replaceGo` walks the character list with a
skip counter: after emitting a replacement it skips the remaining pattern
characters. -/

def replaceGo (pat rep : List Char) : List Char → Nat → List Char
  | [], _ => []
  | _ :: rest, Nat.succ skip => replaceGo pat rep rest skip
  | c :: rest, 0 =>
    if pat.isPrefixOf (c :: rest) then
      rep ++ replaceGo pat rep rest (pat.length - 1)
    else
      c :: replaceGo pat rep rest 0

/-- Python `s.replace(pat, rep)` on character lists.  The source only ever
calls it with the non-empty pattern `"{bbox_scale}"`, so the empty-pattern
case is immaterial here. -/
def pyReplaceL (s pat rep : List Char) : List Char :=
  if pat = [] then s else replaceGo pat rep s 0

/-- Python `s.replace(pat, rep)` on strings. -/
def pyReplace (s pat rep : String) : String :=
  String.mk (pyReplaceL s.data pat.data rep.data)

theorem replaceGo_skip (pat rep : List Char) :
    ∀ (xs : List Char) (n : Nat), replaceGo pat rep xs n = replaceGo pat rep (xs.drop n) 0 := by
  intro xs
  induction xs with
  | nil => intro n; cases n <;> rfl
  | cons c rest ih =>
    intro n
    cases n with
    | zero => rfl
    | succ m => simpa [replaceGo] using ih m

theorem isPrefixOf_iff (l₁ : List Char) :
    ∀ l₂ : List Char, l₁.isPrefixOf l₂ = true ↔ ∃ t, l₁ ++ t = l₂ := by
  induction l₁ with
  | nil => intro l₂; simp [List.isPrefixOf]
  | cons c cs ih =>
    intro l₂
    cases l₂ with
    | nil => simp [List.isPrefixOf]
    | cons d ds =>
      simp only [List.isPrefixOf, Bool.and_eq_true, beq_iff_eq, ih ds]
      constructor
      · rintro ⟨rfl, t, rfl⟩; exact ⟨t, rfl⟩
      · rintro ⟨t, h⟩
        rw [List.cons_append] at h
        cases h
        exact ⟨rfl, t, rfl⟩

theorem replaceGo_cons_match (pat rep : List Char) (c : Char) (rest t : List Char)
    (hpat : pat ≠ []) (h : pat ++ t = c :: rest) :
    replaceGo pat rep (c :: rest) 0 = rep ++ replaceGo pat rep t 0 := by
  have hpre : pat.isPrefixOf (c :: rest) = true := (isPrefixOf_iff pat (c :: rest)).2 ⟨t, h⟩
  cases pat with
  | nil => exact absurd rfl hpat
  | cons p ps =>
    have hstep : replaceGo (p :: ps) rep (c :: rest) 0
        = rep ++ replaceGo (p :: ps) rep rest ps.length := by
      simp [replaceGo, hpre]
    rw [hstep, replaceGo_skip (p :: ps) rep rest ps.length]
    have hdrop : rest.drop ps.length = t := by
      have h2 : (p :: ps) ++ t = c :: rest := h
      have h3 : rest = ps ++ t := by
        simp only [List.cons_append, List.cons.injEq] at h2
        exact h2.2.symm
      rw [h3]
      simp
    rw [hdrop]

theorem replaceGo_cons_nomatch (pat rep : List Char) (c : Char) (rest : List Char)
    (h : pat.isPrefixOf (c :: rest) = false) :
    replaceGo pat rep (c :: rest) 0 = c :: replaceGo pat rep rest 0 := by
  cases pat with
  | nil => simp [List.isPrefixOf] at h
  | cons p ps => simp [replaceGo, h]

theorem replaceGo_length_ge (pat rep : List Char) (hpat : pat ≠ [])
    (hlen : pat.length ≤ rep.length) :
    ∀ (n : Nat) (s : List Char), s.length = n → s.length ≤ (replaceGo pat rep s 0).length := by
  intro n
  induction n using Nat.strong_induction_on with
  | _ n ih =>
    intro s hn
    cases s with
    | nil => simp [replaceGo]
    | cons c rest =>
      cases hpre : pat.isPrefixOf (c :: rest) with
      | true =>
        obtain ⟨t, ht⟩ := (isPrefixOf_iff pat (c :: rest)).1 hpre
        rw [replaceGo_cons_match pat rep c rest t hpat ht]
        have hlt : t.length < n := by
          have := congrArg List.length ht
          simp only [List.length_append, List.length_cons] at this
          simp only [List.length_cons] at hn
          have hp1 : 1 ≤ pat.length := by
            cases pat with
            | nil => exact absurd rfl hpat
            | cons _ _ => simp
          omega
        have hrec := ih t.length hlt t rfl
        have hsl : (c :: rest).length = pat.length + t.length := by
          have := congrArg List.length ht
          simp only [List.length_append] at this
          omega
        rw [hsl]
        simp only [List.length_append]
        exact Nat.add_le_add hlen hrec
      | false =>
        rw [replaceGo_cons_nomatch pat rep c rest hpre]
        have hlt : rest.length < n := by simp only [List.length_cons] at hn; omega
        have := ih rest.length hlt rest rfl
        simp only [List.length_cons]
        omega

theorem replaceGo_length_le (pat rep : List Char) (hpat : pat ≠ [])
    (hlen : rep.length ≤ pat.length) :
    ∀ (n : Nat) (s : List Char), s.length = n → (replaceGo pat rep s 0).length ≤ s.length := by
  intro n
  induction n using Nat.strong_induction_on with
  | _ n ih =>
    intro s hn
    cases s with
    | nil => simp [replaceGo]
    | cons c rest =>
      cases hpre : pat.isPrefixOf (c :: rest) with
      | true =>
        obtain ⟨t, ht⟩ := (isPrefixOf_iff pat (c :: rest)).1 hpre
        rw [replaceGo_cons_match pat rep c rest t hpat ht]
        have hlt : t.length < n := by
          have := congrArg List.length ht
          simp only [List.length_append, List.length_cons] at this
          simp only [List.length_cons] at hn
          have hp1 : 1 ≤ pat.length := by
            cases pat with
            | nil => exact absurd rfl hpat
            | cons _ _ => simp
          omega
        have hrec := ih t.length hlt t rfl
        have hsl : (c :: rest).length = pat.length + t.length := by
          have := congrArg List.length ht
          simp only [List.length_append] at this
          omega
        rw [hsl]
        simp only [List.length_append]
        exact Nat.add_le_add hlen hrec
      | false =>
        rw [replaceGo_cons_nomatch pat rep c rest hpre]
        have hlt : rest.length < n := by simp only [List.length_cons] at hn; omega
        have := ih rest.length hlt rest rfl
        simp only [List.length_cons]
        omega

/-- If the (non-empty) pattern occurs in `s` and the replacement differs from
the pattern, Python-style replacement changes the string. -/
theorem replaceGo_ne_of_infix (pat rep : List Char) (hpat : pat ≠ []) (hne : rep ≠ pat) :
    ∀ (n : Nat) (s : List Char), s.length = n → pat <:+: s → replaceGo pat rep s 0 ≠ s := by
  intro n
  induction n using Nat.strong_induction_on with
  | _ n ih =>
    intro s hn hinf
    cases s with
    | nil =>
      obtain ⟨u, v, huv⟩ := hinf
      have : pat = [] := by
        have := congrArg List.length huv
        simp only [List.length_append, List.length_nil] at this
        exact List.eq_nil_of_length_eq_zero (by omega)
      exact absurd this hpat
    | cons c rest =>
      cases hpre : pat.isPrefixOf (c :: rest) with
      | true =>
        obtain ⟨t, ht⟩ := (isPrefixOf_iff pat (c :: rest)).1 hpre
        rw [replaceGo_cons_match pat rep c rest t hpat ht]
        intro hcontra
        rw [← ht] at hcontra
        rcases Nat.lt_trichotomy rep.length pat.length with hlt | heq | hgt
        · have hle := replaceGo_length_le pat rep hpat (Nat.le_of_lt hlt) t.length t rfl
          have := congrArg List.length hcontra
          simp only [List.length_append] at this
          omega
        · obtain ⟨h1, _⟩ := List.append_inj hcontra heq
          exact hne h1
        · have hge := replaceGo_length_ge pat rep hpat (Nat.le_of_lt hgt) t.length t rfl
          have := congrArg List.length hcontra
          simp only [List.length_append] at this
          omega
      | false =>
        rw [replaceGo_cons_nomatch pat rep c rest hpre]
        have hinf' : pat <:+: rest := by
          obtain ⟨u, v, huv⟩ := hinf
          cases u with
          | nil =>
            exfalso
            have : pat.isPrefixOf (c :: rest) = true :=
              (isPrefixOf_iff pat (c :: rest)).2 ⟨v, by simpa using huv⟩
            rw [hpre] at this
            exact Bool.false_ne_true this
          | cons a u' =>
            refine ⟨u', v, ?_⟩
            simp only [List.cons_append, List.cons.injEq] at huv
            exact huv.2
        intro hcontra
        have heq : replaceGo pat rep rest 0 = rest := by
          simpa using hcontra
        have hlt : rest.length < n := by simp only [List.length_cons] at hn; omega
        exact ih rest.length hlt rest rfl hinf' heq

/-- `pyReplace` changes a string containing the pattern whenever the
replacement differs from the (non-empty) pattern. -/
theorem pyReplace_ne_of_infix (s pat rep : String) (hpat : pat.data ≠ [])
    (hne : rep.data ≠ pat.data) (hinf : pat.data <:+: s.data) :
    pyReplace s pat rep ≠ s := by
  intro hcontra
  have hdata : pyReplaceL s.data pat.data rep.data = s.data := by
    have := congrArg String.data hcontra
    simpa [pyReplace] using this
  rw [pyReplaceL, if_neg hpat] at hdata
  exact replaceGo_ne_of_infix pat.data rep.data hpat hne s.data.length s.data rfl hinf hdata

/-! ### Preprocessing: `process_batch_element` -/

/-- Modelled from the spec: `scale_to_fit` lives in `chandra/model/util.py`,
which is not under `src/`.  The spec says: "downscale (never upscale) the
image so neither dimension exceeds a fixed cap (width ≤ 1536, height ≤ 1024),
preserving aspect ratio" and "images already within bounds are returned
unchanged".  The shrink factor is `min (maxW / w) (maxH / h)`; the
non-binding dimension is rounded down. -/
def scale_to_fit (img : Image) (max_size : Nat × Nat) : Image :=
  let maxW := max_size.1
  let maxH := max_size.2
  if img.width ≤ maxW ∧ img.height ≤ maxH then img
  else if img.width * maxH ≤ img.height * maxW then
    { width := img.width * maxH / img.height, height := maxH }
  else
    { width := maxW, height := img.height * maxW / img.width }

/-- The literal placeholder `"{bbox_scale}"` substituted into prompt
templates. -/
def bbox_placeholder : String := "\x7bbbox_scale\x7d"

/-- `process_batch_element(item, processor, bbox_scale)` from `hf.py` (the
`processor` argument is unused by the body and is omitted).  A falsy prompt
(`None` or `""`) selects the template registered for `item.prompt_type`,
substituting the bounding-box scale; a missing registry key is Python's
`KeyError`, modelled as `Except.error`. -/
def process_batch_element (pm : PromptMapping) (item : BatchInputItem)
    (bbox_scale : Int) : Except String Message :=
  let resolved : Except String String :=
    if item.prompt = none ∨ item.prompt = some "" then
      match pm item.prompt_type with
      | some template =>
          Except.ok (pyReplace template bbox_placeholder (toString bbox_scale))
      | none => Except.error ("KeyError: " ++ item.prompt_type)
    else Except.ok (item.prompt.getD "")
  match resolved with
  | Except.error e => Except.error e
  | Except.ok prompt =>
      let image := scale_to_fit item.image (1536, 1024)
      Except.ok { role := "user",
                  content := [ContentBlock.image image, ContentBlock.text prompt] }

/-! ### The generation driver: `generate_hf` -/

/-- A Python list comprehension whose body may raise: the first failure
aborts the whole traversal. -/
def mapExcept {ε α β : Type} (f : α → Except ε β) : List α → Except ε (List β)
  | [] => Except.ok []
  | x :: xs =>
    match f x with
    | Except.error e => Except.error e
    | Except.ok y =>
      match mapExcept f xs with
      | Except.error e => Except.error e
      | Except.ok ys => Except.ok (y :: ys)

/-- The loaded model together with its attached processor, abstracted to the
operations `generate_hf` invokes.  `device` records the placement chosen at
load time; the body of `generate_hf` never reads it. -/
structure ModelHandle where
  device : String
  apply_chat_template : List Message → List String
  encode : List String → List Image → List (List Nat)
  generate : Nat → List (List Nat) → List (List Nat)
  batch_decode : List (List Nat) → List String

/-- `qwen_vl_utils.process_vision_info`: collects the image blocks of the
messages, in order. -/
def process_vision_info (messages : List Message) : List Image :=
  (messages.map fun m =>
    m.content.filterMap fun b =>
      match b with
      | ContentBlock.image i => some i
      | ContentBlock.text _ => none).flatten

/-- The tokenized batch: a device tag plus the (left-padded) `input_ids`
rows. -/
structure Tensors where
  device : String
  input_ids : List (List Nat)
deriving DecidableEq

/-- `inputs.to(device)`: on a machine without CUDA, moving to `"cuda"`
raises (modelled as `Except.error`); otherwise only the device tag
changes. -/
def tensor_to (cuda_available : Bool) (t : Tensors) (device : String) :
    Except String Tensors :=
  if device = "cuda" ∧ cuda_available = false then Except.error "CUDA not available"
  else Except.ok { t with device := device }

/-- Rendering plus tokenisation: `apply_chat_template` then
`processor(text=..., images=..., padding=True, padding_side="left")`. -/
def inputIdsOf (model : ModelHandle) (messages : List Message) : List (List Nat) :=
  model.encode (model.apply_chat_template messages) (process_vision_info messages)

/-- `generated_ids_trimmed`: each output sequence with a prefix of its
input row's length discarded (`out_ids[len(in_ids):]`). -/
def trimmedOf (model : ModelHandle) (mot : Nat) (rows : List (List Nat)) :
    List (List Nat) :=
  List.zipWith (fun in_ids out_ids => out_ids.drop in_ids.length)
    rows (model.generate mot rows)

/-- The final list comprehension of `generate_hf`: one `GenerationResult`
per decoded string zipped with its trimmed id sequence. -/
def resultsOf (model : ModelHandle) (mot : Nat) (rows : List (List Nat)) :
    List GenerationResult :=
  List.zipWith (fun out ids => { raw := out, token_count := ids.length, error := false })
    (model.batch_decode (trimmedOf model mot rows)) (trimmedOf model mot rows)

/-- `generate_hf(batch, model, max_output_tokens=None, bbox_scale=settings.BBOX_SCALE)`.
The Python default for `bbox_scale` is `settings.BBOX_SCALE`; here the scale
is always passed explicitly.  `cuda_available` models
`torch.cuda`'s availability on the host. -/
def generate_hf (batch : List BatchInputItem) (model : ModelHandle)
    (max_output_tokens : Option Nat) (bbox_scale : Int) (pm : PromptMapping)
    (s : Settings) (cuda_available : Bool) : Except String (List GenerationResult) :=
  let mot := max_output_tokens.getD s.MAX_OUTPUT_TOKENS
  match mapExcept (fun item => process_batch_element pm item bbox_scale) batch with
  | Except.error e => Except.error e
  | Except.ok messages =>
    match tensor_to cuda_available
        { device := "cpu", input_ids := inputIdsOf model messages } "cuda" with
    | Except.error e => Except.error e
    | Except.ok inputs => Except.ok (resultsOf model mot inputs.input_ids)

/-! ### The loader: `load_model` -/

inductive Dtype where
  | float32
  | float16
  | bfloat16
deriving DecidableEq

/-- `transformers.BitsAndBytesConfig` restricted to the fields `load_model`
sets. -/
structure BitsAndBytesConfig where
  load_in_8bit : Bool
  llm_int8_threshold : Rat
  llm_int8_has_fp16_weight : Bool
deriving DecidableEq

inductive DeviceMap where
  | auto
  | pinned (device : String)
deriving DecidableEq

/-- The keyword arguments `load_model` passes to `from_pretrained`.  The
quantized branch sets the `torch_dtype` key; the default branch sets the
`dtype` key, exactly as the two distinct dict keys in the source. -/
structure LoadKwargs where
  device_map : DeviceMap
  max_memory : List (String × String)
  offload_state_dict : Bool
  quantization_config : Option BitsAndBytesConfig := none
  torch_dtype : Option Dtype := none
  dtype : Option Dtype := none
  attn_implementation : Option String := none
deriving DecidableEq

/-- The kwargs-construction logic of `load_model` (the `from_pretrained`
call itself is external).  `if settings.TORCH_DEVICE:` and
`if settings.TORCH_ATTN:` follow Python truthiness, where `None` and the
empty string are falsy. -/
def load_model_kwargs (s : Settings) (cuda_available : Bool) : LoadKwargs :=
  let device_map : DeviceMap :=
    match s.TORCH_DEVICE with
    | some d => if d = "" then DeviceMap.auto else DeviceMap.pinned d
    | none => DeviceMap.auto
  let base : LoadKwargs :=
    { device_map := device_map,
      max_memory := [("0", "11GiB"), ("cpu", "60GiB")],
      offload_state_dict := true }
  let withDtype : LoadKwargs :=
    if s.USE_8BIT_QUANTIZATION = true ∧ cuda_available = true then
      { base with
        quantization_config := some
          { load_in_8bit := true, llm_int8_threshold := 6,
            llm_int8_has_fp16_weight := false },
        torch_dtype := some Dtype.float16 }
    else
      { base with dtype := some Dtype.float32 }
  match s.TORCH_ATTN with
  | some a => if a = "" then withDtype else { withDtype with attn_implementation := some a }
  | none => withDtype

/-! ### Helper lemmas on `mapExcept` and `zipWith` -/

theorem mapExcept_ok_length {ε α β : Type} (f : α → Except ε β) :
    ∀ (l : List α) (ys : List β), mapExcept f l = Except.ok ys → ys.length = l.length := by
  intro l
  induction l with
  | nil =>
    intro ys h
    simp only [mapExcept] at h
    cases h
    rfl
  | cons x xs ih =>
    intro ys h
    simp only [mapExcept] at h
    cases hfx : f x with
    | error e => rw [hfx] at h; cases h
    | ok y =>
      rw [hfx] at h
      cases hxs : mapExcept f xs with
      | error e => rw [hxs] at h; cases h
      | ok ys' =>
        rw [hxs] at h
        cases h
        simp [ih ys' hxs]

theorem mapExcept_ok_getElem {ε α β : Type} (f : α → Except ε β) :
    ∀ (l : List α) (ys : List β), mapExcept f l = Except.ok ys →
      ∀ (i : Nat) (x : α), l[i]? = some x → ∃ y, ys[i]? = some y ∧ f x = Except.ok y := by
  intro l
  induction l with
  | nil =>
    intro ys h i x hx
    simp at hx
  | cons a xs ih =>
    intro ys h i x hx
    simp only [mapExcept] at h
    cases hfa : f a with
    | error e => rw [hfa] at h; cases h
    | ok y =>
      rw [hfa] at h
      cases hxs : mapExcept f xs with
      | error e => rw [hxs] at h; cases h
      | ok ys' =>
        rw [hxs] at h
        cases h
        cases i with
        | zero =>
          simp only [List.getElem?_cons_zero, Option.some.injEq] at hx
          exact ⟨y, by simp, by rw [← hx]; exact hfa⟩
        | succ j =>
          simp only [List.getElem?_cons_succ] at hx ⊢
          exact ih ys' hxs j x hx

theorem mapExcept_error_of_mem {ε α β : Type} (f : α → Except ε β) :
    ∀ (l : List α) (x : α) (e : ε), x ∈ l → f x = Except.error e →
      ∃ e', mapExcept f l = Except.error e' := by
  intro l
  induction l with
  | nil => intro x e hx; cases hx
  | cons a xs ih =>
    intro x e hx hfx
    simp only [mapExcept]
    rcases List.mem_cons.1 hx with rfl | hmem
    · rw [hfx]; exact ⟨e, rfl⟩
    · cases hfa : f a with
      | error e'' => exact ⟨e'', rfl⟩
      | ok y =>
        obtain ⟨e', he'⟩ := ih x e hmem hfx
        rw [he']
        exact ⟨e', rfl⟩

theorem zipWith_getElem_opt {α β γ : Type} (f : α → β → γ) :
    ∀ (a : List α) (b : List β) (i : Nat),
      (List.zipWith f a b)[i]? =
        (a[i]?).bind fun x => (b[i]?).map fun y => f x y := by
  intro a
  induction a with
  | nil => intro b i; simp
  | cons x xs ih =>
    intro b i
    cases b with
    | nil => simp
    | cons y ys =>
      cases i with
      | zero => simp
      | succ j => simpa using ih ys j

theorem error_false_of_mem_resultsOf (model : ModelHandle) (mot : Nat)
    (rows : List (List Nat)) :
    ∀ r ∈ resultsOf model mot rows, r.error = false := by
  intro r hr
  rw [resultsOf] at hr
  generalize model.batch_decode (trimmedOf model mot rows) = a at hr
  generalize trimmedOf model mot rows = b at hr
  induction a generalizing b with
  | nil => simp at hr
  | cons x xs ih =>
    cases b with
    | nil => simp at hr
    | cons y ys =>
      simp only [List.zipWith_cons_cons, List.mem_cons] at hr
      rcases hr with rfl | hr
      · rfl
      · exact ih ys hr

theorem lt_div_succ_mul (a b : Nat) (hb : 0 < b) : a < (a / b + 1) * b := by
  have h1 := Nat.div_add_mod' a b
  have h2 := Nat.mod_lt a hb
  have h3 : (a / b + 1) * b = a / b * b + b := by ring
  omega

/-! ### Claim theorems -/

/-- C5: `scale_to_fit` caps the image at width ≤ 1536 and height ≤ 1024,
only ever shrinks (never enlarges), returns an in-bounds image unchanged, and
preserves the aspect ratio within rounding (the cross products agree up to one
rounding step). -/
theorem scale_to_fit_spec (img : Image) (hw : 0 < img.width) (hh : 0 < img.height) :
    (scale_to_fit img (1536, 1024)).width ≤ 1536
    ∧ (scale_to_fit img (1536, 1024)).height ≤ 1024
    ∧ (scale_to_fit img (1536, 1024)).width ≤ img.width
    ∧ (scale_to_fit img (1536, 1024)).height ≤ img.height
    ∧ (img.width ≤ 1536 ∧ img.height ≤ 1024 → scale_to_fit img (1536, 1024) = img)
    ∧ (scale_to_fit img (1536, 1024)).width * img.height
        < ((scale_to_fit img (1536, 1024)).height + 1) * img.width
    ∧ (scale_to_fit img (1536, 1024)).height * img.width
        < ((scale_to_fit img (1536, 1024)).width + 1) * img.height := by
  rw [scale_to_fit]
  simp only
  split_ifs with h1 h2
  · refine ⟨h1.1, h1.2, Nat.le_refl _, Nat.le_refl _, fun _ => rfl, ?_, ?_⟩
    · rw [Nat.add_mul, Nat.one_mul, Nat.mul_comm]
      omega
    · rw [Nat.add_mul, Nat.one_mul, Nat.mul_comm]
      omega
  · -- height is the binding dimension
    have hh1024 : 1024 < img.height := by
      by_contra hcon
      push_neg at hcon
      have hw1536 : 1536 < img.width := by
        rcases Nat.lt_or_ge 1536 img.width with h' | h'
        · exact h'
        · exact absurd ⟨h', hcon⟩ h1
      have hfalse : img.width * 1024 < img.width * 1024 := calc
        img.width * 1024 ≤ img.height * 1536 := h2
        _ ≤ 1024 * 1536 := Nat.mul_le_mul_right 1536 hcon
        _ < img.width * 1024 := by
            have he : (1024 : Nat) * 1536 = 1536 * 1024 := by norm_num
            rw [he]
            exact Nat.mul_lt_mul_of_lt_of_le hw1536 (Nat.le_refl _) (by norm_num)
      exact absurd hfalse (lt_irrefl _)
    have hwbound : img.width * 1024 / img.height ≤ 1536 := Nat.div_le_of_le_mul' h2
    have hshrink : img.width * 1024 / img.height ≤ img.width := by
      refine Nat.div_le_of_le_mul' ?_
      calc img.width * 1024 ≤ img.width * img.height :=
            Nat.mul_le_mul_left img.width (Nat.le_of_lt hh1024)
        _ = img.height * img.width := Nat.mul_comm _ _
    refine ⟨hwbound, Nat.le_refl _, hshrink, Nat.le_of_lt hh1024,
      fun hb => absurd hb h1, ?_, ?_⟩
    · show img.width * 1024 / img.height * img.height < (1024 + 1) * img.width
      have e1 : img.width * 1024 / img.height * img.height ≤ img.width * 1024 :=
        Nat.div_mul_le_self _ _
      have e2 : (1024 + 1) * img.width = img.width * 1024 + img.width := by ring
      omega
    · show (1024 : Nat) * img.width < (img.width * 1024 / img.height + 1) * img.height
      have e1 : img.width * 1024 < (img.width * 1024 / img.height + 1) * img.height :=
        lt_div_succ_mul _ _ hh
      omega
  · -- width is the binding dimension
    push_neg at h2
    have hw1536 : 1536 < img.width := by
      by_contra hcon
      push_neg at hcon
      have hh1024 : 1024 < img.height := by
        rcases Nat.lt_or_ge 1024 img.height with h' | h'
        · exact h'
        · exact absurd ⟨hcon, h'⟩ h1
      have hfalse : img.height * 1536 < img.height * 1536 := calc
        img.height * 1536 < img.width * 1024 := h2
        _ ≤ 1536 * 1024 := Nat.mul_le_mul_right 1024 hcon
        _ = 1024 * 1536 := by norm_num
        _ < img.height * 1536 := Nat.mul_lt_mul_of_lt_of_le hh1024 (Nat.le_refl _) (by norm_num)
      exact absurd hfalse (lt_irrefl _)
    have hhbound : img.height * 1536 / img.width ≤ 1024 :=
      Nat.div_le_of_le_mul' (Nat.le_of_lt h2)
    have hshrink : img.height * 1536 / img.width ≤ img.height := by
      refine Nat.div_le_of_le_mul' ?_
      calc img.height * 1536 ≤ img.height * img.width :=
            Nat.mul_le_mul_left img.height (Nat.le_of_lt hw1536)
        _ = img.width * img.height := Nat.mul_comm _ _
    refine ⟨Nat.le_refl _, hhbound, Nat.le_of_lt hw1536, hshrink,
      fun hb => absurd hb h1, ?_, ?_⟩
    · show (1536 : Nat) * img.height < (img.height * 1536 / img.width + 1) * img.width
      have e1 : img.height * 1536 < (img.height * 1536 / img.width + 1) * img.width :=
        lt_div_succ_mul _ _ hw
      omega
    · show img.height * 1536 / img.width * img.width < (1536 + 1) * img.height
      have e1 : img.height * 1536 / img.width * img.width ≤ img.height * 1536 :=
        Nat.div_mul_le_self _ _
      have e2 : (1536 + 1) * img.height = img.height * 1536 + img.height := by ring
      omega

/-- C7: every message produced by `process_batch_element` has role `"user"`
and exactly two content blocks, the (scaled) image first and the text
second. -/
theorem process_batch_element_message_shape (pm : PromptMapping)
    (item : BatchInputItem) (bbox_scale : Int) (msg : Message)
    (h : process_batch_element pm item bbox_scale = Except.ok msg) :
    msg.role = "user"
    ∧ ∃ t, msg.content
        = [ContentBlock.image (scale_to_fit item.image (1536, 1024)),
           ContentBlock.text t] := by
  simp only [process_batch_element] at h
  split at h
  · cases h
  · cases h
    exact ⟨rfl, _, rfl⟩

/-- C3: when an item has no explicit prompt, the message text is the
registered template with every `"{bbox_scale}"` occurrence replaced by the
decimal form of the scale, and it differs from the raw template whenever the
scale's string form differs from the placeholder (the registry's templates
contain the placeholder, which appears as the infix hypothesis). -/
theorem process_batch_element_template_rendering (pm : PromptMapping)
    (item : BatchInputItem) (bbox_scale : Int) (template : String)
    (hnone : item.prompt = none)
    (hreg : pm item.prompt_type = some template)
    (hinf : bbox_placeholder.data <:+: template.data)
    (hscale : toString bbox_scale ≠ bbox_placeholder) :
    process_batch_element pm item bbox_scale
      = Except.ok { role := "user",
                    content := [ContentBlock.image (scale_to_fit item.image (1536, 1024)),
                      ContentBlock.text (pyReplace template bbox_placeholder (toString bbox_scale))] }
    ∧ pyReplace template bbox_placeholder (toString bbox_scale) ≠ template := by
  constructor
  · simp [process_batch_element, hnone, hreg]
  · refine pyReplace_ne_of_infix template bbox_placeholder (toString bbox_scale)
      (by decide) ?_ hinf
    intro hd
    apply hscale
    cases hs : toString bbox_scale with
    | mk d1 =>
      cases hp : bbox_placeholder with
      | mk d2 =>
        rw [hs, hp] at hd
        simp only at hd
        rw [hd]

/-- C4 counterexample: an item that supplies the explicit empty-string prompt
does NOT get it verbatim — Python's `if not prompt:` treats `""` as falsy, so
the registered template (with the scale substituted) is used instead. -/
theorem empty_prompt_not_verbatim :
    process_batch_element
        (fun t => if t = "ocr" then some "Read all text. Scale: \x7bbbox_scale\x7d." else none)
        { image := { width := 800, height := 600 }, prompt := some "", prompt_type := "ocr" }
        1024
      = Except.ok { role := "user",
                    content := [ContentBlock.image { width := 800, height := 600 },
                      ContentBlock.text "Read all text. Scale: 1024."] }
    ∧ ("Read all text. Scale: 1024." : String) ≠ "" := by
  constructor
  · rfl
  · decide

/-- C4 (amended): an item that supplies a NON-EMPTY explicit prompt gets that
prompt verbatim as the message text; the override beats the template.  (An
empty-string prompt instead falls back to the `prompt_type` template, as the
counterexample shows.) -/
theorem nonempty_prompt_verbatim (pm : PromptMapping) (item : BatchInputItem)
    (bbox_scale : Int) (p : String) (hp : item.prompt = some p) (hne : p ≠ "") :
    process_batch_element pm item bbox_scale
      = Except.ok { role := "user",
                    content := [ContentBlock.image (scale_to_fit item.image (1536, 1024)),
                      ContentBlock.text p] } := by
  simp [process_batch_element, hp, hne]

/-- C10: a batch containing an item with a falsy prompt and an unregistered
`prompt_type` makes `generate_hf` abort with a lookup error: no results are
produced for any item. -/
theorem generate_hf_missing_template_aborts (pm : PromptMapping)
    (item : BatchInputItem) (batch : List BatchInputItem) (model : ModelHandle)
    (mot : Option Nat) (bbox_scale : Int) (s : Settings) (cuda : Bool)
    (hmem : item ∈ batch) (hprompt : item.prompt = none ∨ item.prompt = some "")
    (hmissing : pm item.prompt_type = none) :
    ∃ e, generate_hf batch model mot bbox_scale pm s cuda = Except.error e := by
  have hfail : process_batch_element pm item bbox_scale
      = Except.error ("KeyError: " ++ item.prompt_type) := by
    simp only [process_batch_element]
    rw [if_pos hprompt, hmissing]
  obtain ⟨e', he'⟩ := mapExcept_error_of_mem
    (fun it => process_batch_element pm it bbox_scale) batch item _ hmem hfail
  refine ⟨e', ?_⟩
  simp only [generate_hf, he']

/-- C6: the 8-bit quantization path and the 32-bit default-precision policy
of `load_model` are mutually exclusive.  Quantization flag AND CUDA available
iff the kwargs hold a `BitsAndBytesConfig` with outlier threshold `6.0` and
`llm_int8_has_fp16_weight = False` together with a float16 compute dtype and
no 32-bit dtype request; in every other case the kwargs request float32 and
carry no quantization config. -/
theorem load_model_quantization_policy (s : Settings) (cuda_available : Bool) :
    ((s.USE_8BIT_QUANTIZATION = true ∧ cuda_available = true) ↔
      ((load_model_kwargs s cuda_available).quantization_config
          = some { load_in_8bit := true, llm_int8_threshold := 6,
                   llm_int8_has_fp16_weight := false }
        ∧ (load_model_kwargs s cuda_available).torch_dtype = some Dtype.float16
        ∧ (load_model_kwargs s cuda_available).dtype = none))
    ∧ (¬(s.USE_8BIT_QUANTIZATION = true ∧ cuda_available = true) ↔
      ((load_model_kwargs s cuda_available).dtype = some Dtype.float32
        ∧ (load_model_kwargs s cuda_available).quantization_config = none
        ∧ (load_model_kwargs s cuda_available).torch_dtype = none)) := by
  obtain ⟨bs, mo, td, q, ta, mc⟩ := s
  simp only [load_model_kwargs]
  cases q <;> cases cuda_available <;> cases ta <;>
    simp_all <;> (try split) <;> simp_all

/-- C8: `generate_hf` never sets the `error` flag: every result of a
successful call carries `error = false`, and a preprocessing exception
aborts the whole call with no results at all (no per-item isolation). -/
theorem generate_hf_error_flag_policy (pm : PromptMapping) (s : Settings)
    (model : ModelHandle) (batch : List BatchInputItem) (mot : Option Nat)
    (bbox_scale : Int) (cuda : Bool) :
    (∀ results, generate_hf batch model mot bbox_scale pm s cuda = Except.ok results →
      ∀ r ∈ results, r.error = false)
    ∧ (∀ e, mapExcept (fun item => process_batch_element pm item bbox_scale) batch
          = Except.error e →
        generate_hf batch model mot bbox_scale pm s cuda = Except.error e) := by
  constructor
  · intro results hok r hr
    cases hmap : mapExcept (fun item => process_batch_element pm item bbox_scale) batch with
    | error e => simp only [generate_hf, hmap] at hok; cases hok
    | ok messages =>
      cases htt : tensor_to cuda
          { device := "cpu", input_ids := inputIdsOf model messages } "cuda" with
      | error e => simp only [generate_hf, hmap, htt] at hok; cases hok
      | ok inputs =>
        simp only [generate_hf, hmap, htt] at hok
        have hres : resultsOf model (mot.getD s.MAX_OUTPUT_TOKENS) inputs.input_ids
            = results := by injection hok
        subst hres
        exact error_false_of_mem_resultsOf model _ inputs.input_ids r hr
  · intro e he
    simp only [generate_hf, he]

/-- C9: `generate_hf` moves the tokenized batch to the literal device
`"cuda"` regardless of the device the model was loaded on: with no CUDA
accelerator every call fails (whatever the handle's device), with CUDA the
tensors end up on `"cuda"` whatever device they started on. -/
theorem generate_hf_hardcodes_cuda (pm : PromptMapping) (s : Settings)
    (model : ModelHandle) (batch : List BatchInputItem) (mot : Option Nat)
    (bbox_scale : Int) (msgs : List Message)
    (hmsgs : mapExcept (fun item => process_batch_element pm item bbox_scale) batch
      = Except.ok msgs) :
    (∀ d : String,
      generate_hf batch { model with device := d } mot bbox_scale pm s false
        = Except.error "CUDA not available")
    ∧ (∀ d : String,
      generate_hf batch { model with device := d } mot bbox_scale pm s true
        = Except.ok (resultsOf { model with device := d }
            (mot.getD s.MAX_OUTPUT_TOKENS)
            (inputIdsOf { model with device := d } msgs)))
    ∧ (∀ (d : String) (rows : List (List Nat)),
        tensor_to true { device := d, input_ids := rows } "cuda"
          = Except.ok { device := "cuda", input_ids := rows }) := by
  refine ⟨?_, ?_, ?_⟩
  · intro d
    simp only [generate_hf, hmsgs, tensor_to]
    simp
  · intro d
    simp only [generate_hf, hmsgs, tensor_to]
    simp
  · intro d rows
    simp [tensor_to]

/-- C1: a successful `generate_hf` call returns exactly one
`GenerationResult` per `BatchInputItem`, in input order: the i-th result is
assembled from the i-th message (itself from the i-th item), the i-th
decoded string and the i-th trimmed sequence, through every map/zip step.
The shape contracts of the external collaborators (one text per message,
one row per text, one output row per input row, one string per sequence)
appear as hypotheses. -/
theorem generate_hf_batch_order (pm : PromptMapping) (s : Settings)
    (model : ModelHandle) (batch : List BatchInputItem) (mot : Option Nat)
    (bbox_scale : Int) (msgs : List Message)
    (hmsgs : mapExcept (fun item => process_batch_element pm item bbox_scale) batch
      = Except.ok msgs)
    (hTmpl : ∀ ms, (model.apply_chat_template ms).length = ms.length)
    (hEnc : ∀ ts imgs, (model.encode ts imgs).length = ts.length)
    (hGen : ∀ n rows, (model.generate n rows).length = rows.length)
    (hDec : ∀ seqs, (model.batch_decode seqs).length = seqs.length) :
    ∃ results,
      generate_hf batch model mot bbox_scale pm s true = Except.ok results
      ∧ results.length = batch.length
      ∧ (∀ i : Nat, i < batch.length →
          ∃ item msg out ids,
            batch[i]? = some item
            ∧ msgs[i]? = some msg
            ∧ process_batch_element pm item bbox_scale = Except.ok msg
            ∧ (model.batch_decode (trimmedOf model (mot.getD s.MAX_OUTPUT_TOKENS)
                  (inputIdsOf model msgs)))[i]? = some out
            ∧ (trimmedOf model (mot.getD s.MAX_OUTPUT_TOKENS) (inputIdsOf model msgs))[i]?
                = some ids
            ∧ results[i]? = some { raw := out, token_count := ids.length, error := false }) := by
  have hmlen : msgs.length = batch.length := mapExcept_ok_length _ batch msgs hmsgs
  have hrows : (inputIdsOf model msgs).length = batch.length := by
    rw [inputIdsOf, hEnc, hTmpl, hmlen]
  have htrim : (trimmedOf model (mot.getD s.MAX_OUTPUT_TOKENS) (inputIdsOf model msgs)).length
      = batch.length := by
    rw [trimmedOf, List.length_zipWith, hGen, hrows, Nat.min_self]
  have hdeco : (model.batch_decode (trimmedOf model (mot.getD s.MAX_OUTPUT_TOKENS)
      (inputIdsOf model msgs))).length = batch.length := by
    rw [hDec, htrim]
  have hres : (resultsOf model (mot.getD s.MAX_OUTPUT_TOKENS) (inputIdsOf model msgs)).length
      = batch.length := by
    rw [resultsOf, List.length_zipWith, hdeco, htrim, Nat.min_self]
  refine ⟨resultsOf model (mot.getD s.MAX_OUTPUT_TOKENS) (inputIdsOf model msgs), ?_, hres, ?_⟩
  · simp only [generate_hf, hmsgs, tensor_to]
    simp
  · intro i hi
    have hbi : batch[i]? = some batch[i] := List.getElem?_eq_getElem hi
    obtain ⟨msg, hmsgi, hfmsg⟩ := mapExcept_ok_getElem _ batch msgs hmsgs i batch[i] hbi
    have hidec : i < (model.batch_decode (trimmedOf model (mot.getD s.MAX_OUTPUT_TOKENS)
        (inputIdsOf model msgs))).length := by rw [hdeco]; exact hi
    have hitrim : i < (trimmedOf model (mot.getD s.MAX_OUTPUT_TOKENS)
        (inputIdsOf model msgs)).length := by rw [htrim]; exact hi
    refine ⟨batch[i], msg,
      (model.batch_decode (trimmedOf model (mot.getD s.MAX_OUTPUT_TOKENS)
        (inputIdsOf model msgs)))[i],
      (trimmedOf model (mot.getD s.MAX_OUTPUT_TOKENS) (inputIdsOf model msgs))[i],
      hbi, hmsgi, hfmsg, List.getElem?_eq_getElem hidec, List.getElem?_eq_getElem hitrim, ?_⟩
    rw [resultsOf, zipWith_getElem_opt,
      List.getElem?_eq_getElem hidec, List.getElem?_eq_getElem hitrim]
    rfl

/-- C2: each returned result is built from the generated sequence with a
prefix of exactly that row's (left-padded) `input_ids` length discarded;
`token_count` is the length of what remains, and `raw` is its decoding. -/
theorem generate_hf_trim_token_count (pm : PromptMapping) (s : Settings)
    (model : ModelHandle) (batch : List BatchInputItem) (mot : Option Nat)
    (bbox_scale : Int) (msgs : List Message) (dec : List Nat → String)
    (hmsgs : mapExcept (fun item => process_batch_element pm item bbox_scale) batch
      = Except.ok msgs)
    (hGen : ∀ n rows, (model.generate n rows).length = rows.length)
    (hDec : model.batch_decode = fun seqs => seqs.map dec) :
    ∃ results,
      generate_hf batch model mot bbox_scale pm s true = Except.ok results
      ∧ (∀ i : Nat, i < (inputIdsOf model msgs).length →
          ∃ in_ids out_ids,
            (inputIdsOf model msgs)[i]? = some in_ids
            ∧ (model.generate (mot.getD s.MAX_OUTPUT_TOKENS) (inputIdsOf model msgs))[i]?
                = some out_ids
            ∧ results[i]? = some { raw := dec (out_ids.drop in_ids.length),
                                   token_count := (out_ids.drop in_ids.length).length,
                                   error := false }) := by
  refine ⟨resultsOf model (mot.getD s.MAX_OUTPUT_TOKENS) (inputIdsOf model msgs), ?_, ?_⟩
  · simp only [generate_hf, hmsgs, tensor_to]
    simp
  · intro i hi
    have higen : i < (model.generate (mot.getD s.MAX_OUTPUT_TOKENS)
        (inputIdsOf model msgs)).length := by rw [hGen]; exact hi
    refine ⟨(inputIdsOf model msgs)[i],
      (model.generate (mot.getD s.MAX_OUTPUT_TOKENS) (inputIdsOf model msgs))[i],
      List.getElem?_eq_getElem hi, List.getElem?_eq_getElem higen, ?_⟩
    have htrimi : (trimmedOf model (mot.getD s.MAX_OUTPUT_TOKENS) (inputIdsOf model msgs))[i]?
        = some ((model.generate (mot.getD s.MAX_OUTPUT_TOKENS)
            (inputIdsOf model msgs))[i].drop (inputIdsOf model msgs)[i].length) := by
      rw [trimmedOf, zipWith_getElem_opt,
        List.getElem?_eq_getElem hi, List.getElem?_eq_getElem higen]
      rfl
    rw [resultsOf, zipWith_getElem_opt, hDec]
    rw [List.getElem?_map, htrimi]
    rfl

/-! ### Concrete fixtures (for witness instantiations) -/

def imgSmall : Image := { width := 800, height := 600 }

def ocrTemplate : String := "Read all text. Scale: \x7bbbox_scale\x7d."

def pmFix : PromptMapping := fun t => if t = "ocr" then some ocrTemplate else none

def itemLiteralPrompt : BatchInputItem :=
  { image := imgSmall, prompt := some "Describe this chart", prompt_type := "layout" }

def itemOcr : BatchInputItem :=
  { image := imgSmall, prompt := none, prompt_type := "ocr" }

def itemMissing : BatchInputItem :=
  { image := imgSmall, prompt := none, prompt_type := "table" }

def settingsFix : Settings :=
  { BBOX_SCALE := 1024, MAX_OUTPUT_TOKENS := 3, TORCH_DEVICE := none,
    USE_8BIT_QUANTIZATION := false, TORCH_ATTN := none,
    MODEL_CHECKPOINT := "datalab-to/chandra" }

def settingsQuant : Settings :=
  { BBOX_SCALE := 1024, MAX_OUTPUT_TOKENS := 3, TORCH_DEVICE := none,
    USE_8BIT_QUANTIZATION := true, TORCH_ATTN := none,
    MODEL_CHECKPOINT := "datalab-to/chandra" }

def decFix : List Nat → String := fun ids => String.mk (List.replicate ids.length 'x')

def modelFix : ModelHandle :=
  { device := "cpu",
    apply_chat_template := fun ms => ms.map (fun _ => "chat"),
    encode := fun ts _ => ts.map (fun t => List.replicate t.length 1),
    generate := fun _ rows => rows.map (fun r => r ++ [7, 8, 9]),
    batch_decode := fun seqs => seqs.map decFix }

def batchFix : List BatchInputItem := [itemLiteralPrompt, itemOcr]

def msgsFix : List Message :=
  [{ role := "user",
     content := [ContentBlock.image imgSmall, ContentBlock.text "Describe this chart"] },
   { role := "user",
     content := [ContentBlock.image imgSmall,
       ContentBlock.text "Read all text. Scale: 1024."] }]

def resultsFix : List GenerationResult :=
  [{ raw := "xxx", token_count := 3, error := false },
   { raw := "xxx", token_count := 3, error := false }]

def msgLiteral : Message :=
  { role := "user",
    content := [ContentBlock.image imgSmall, ContentBlock.text "Describe this chart"] }

/-! ### Witnesses -/

/-- Witness for C1 at a concrete two-item batch. -/
theorem generate_hf_batch_order_witness :
    ∃ results,
      generate_hf batchFix modelFix none 1024 pmFix settingsFix true = Except.ok results
      ∧ results.length = batchFix.length := by
  obtain ⟨results, h1, h2, _⟩ := generate_hf_batch_order pmFix settingsFix modelFix batchFix
    none 1024 msgsFix (by rfl)
    (fun ms => by simp [modelFix])
    (fun ts imgs => by simp [modelFix])
    (fun n rows => by simp [modelFix])
    (fun seqs => by simp [modelFix])
  exact ⟨results, h1, h2⟩

/-- Witness for C2 at a concrete batch, instantiated at index 0. -/
theorem generate_hf_trim_token_count_witness :
    ∃ results,
      generate_hf batchFix modelFix none 1024 pmFix settingsFix true = Except.ok results
      ∧ ∃ in_ids out_ids,
          (inputIdsOf modelFix msgsFix)[0]? = some in_ids
          ∧ (modelFix.generate 3 (inputIdsOf modelFix msgsFix))[0]? = some out_ids
          ∧ results[0]? = some { raw := decFix (out_ids.drop in_ids.length),
                                 token_count := (out_ids.drop in_ids.length).length,
                                 error := false } := by
  obtain ⟨results, h1, h2⟩ := generate_hf_trim_token_count pmFix settingsFix modelFix batchFix
    none 1024 msgsFix decFix (by rfl) (fun n rows => by simp [modelFix]) (by rfl)
  exact ⟨results, h1, h2 0 (by decide)⟩

/-- Witness for C3 at a concrete template and scale 1024. -/
theorem process_batch_element_template_rendering_witness :
    process_batch_element pmFix itemOcr 1024
      = Except.ok { role := "user",
                    content := [ContentBlock.image (scale_to_fit itemOcr.image (1536, 1024)),
                      ContentBlock.text (pyReplace ocrTemplate bbox_placeholder
                        (toString (1024 : Int)))] }
    ∧ pyReplace ocrTemplate bbox_placeholder (toString (1024 : Int)) ≠ ocrTemplate :=
  process_batch_element_template_rendering pmFix itemOcr 1024 ocrTemplate rfl rfl
    ⟨("Read all text. Scale: ").data, (".").data, by decide⟩ (by decide)

/-- Witness for C4's amended claim at a concrete non-empty prompt. -/
theorem nonempty_prompt_verbatim_witness :
    process_batch_element pmFix itemLiteralPrompt 1024
      = Except.ok { role := "user",
                    content := [ContentBlock.image
                        (scale_to_fit itemLiteralPrompt.image (1536, 1024)),
                      ContentBlock.text "Describe this chart"] } :=
  nonempty_prompt_verbatim pmFix itemLiteralPrompt 1024 "Describe this chart" rfl (by decide)

/-- Witness for C5 at a 3072 × 512 image (width-bound branch). -/
theorem scale_to_fit_spec_witness :
    (scale_to_fit { width := 3072, height := 512 } (1536, 1024)).width ≤ 1536
    ∧ (scale_to_fit { width := 3072, height := 512 } (1536, 1024)).width ≤ 3072 := by
  obtain ⟨h1, _, h3, _⟩ :=
    scale_to_fit_spec { width := 3072, height := 512 } (by decide) (by decide)
  exact ⟨h1, h3⟩

/-- Witness for C6 at settings with the quantization flag set and CUDA
available. -/
theorem load_model_quantization_policy_witness :
    (load_model_kwargs settingsQuant true).quantization_config
      = some { load_in_8bit := true, llm_int8_threshold := 6,
               llm_int8_has_fp16_weight := false }
    ∧ (load_model_kwargs settingsQuant true).dtype = none := by
  obtain ⟨h1, _⟩ := load_model_quantization_policy settingsQuant true
  obtain ⟨hq, _, hd⟩ := h1.mp ⟨rfl, rfl⟩
  exact ⟨hq, hd⟩

/-- Witness for C7 at the concrete literal-prompt item. -/
theorem process_batch_element_message_shape_witness :
    msgLiteral.role = "user"
    ∧ ∃ t, msgLiteral.content
        = [ContentBlock.image (scale_to_fit itemLiteralPrompt.image (1536, 1024)),
           ContentBlock.text t] :=
  process_batch_element_message_shape pmFix itemLiteralPrompt 1024 msgLiteral (by rfl)

/-- Witness for C8: a concrete successful run carries `error = false`, and a
concrete failing preprocessing aborts the call. -/
theorem generate_hf_error_flag_policy_witness :
    ({ raw := "xxx", token_count := 3, error := false } : GenerationResult).error = false
    ∧ generate_hf [itemMissing] modelFix none 1024 pmFix settingsFix true
        = Except.error ("KeyError: " ++ "table") := by
  constructor
  · exact (generate_hf_error_flag_policy pmFix settingsFix modelFix batchFix none 1024 true).1
      resultsFix (by rfl) _ (by decide)
  · exact (generate_hf_error_flag_policy pmFix settingsFix modelFix [itemMissing]
      none 1024 true).2 ("KeyError: " ++ "table") (by rfl)

/-- Witness for C9 at a handle pinned to a non-CUDA device. -/
theorem generate_hf_hardcodes_cuda_witness :
    generate_hf batchFix { modelFix with device := "mps" } none 1024 pmFix settingsFix false
      = Except.error "CUDA not available" :=
  (generate_hf_hardcodes_cuda pmFix settingsFix modelFix batchFix none 1024 msgsFix
    (by rfl)).1 "mps"

/-- Witness for C10 at a singleton batch whose item's prompt type is
unregistered. -/
theorem generate_hf_missing_template_aborts_witness :
    ∃ e, generate_hf [itemMissing] modelFix none 1024 pmFix settingsFix true
      = Except.error e :=
  generate_hf_missing_template_aborts pmFix itemMissing [itemMissing] modelFix none 1024
    settingsFix true (List.mem_singleton.mpr rfl) (Or.inl rfl) rfl

end Chandra
